import Mathlib

/-!
Verification development for the `ctrl4ai` automl module
(`src/ctrl4ai/automl.py`).

The module's own control flow (`preprocess`, `scale_transform`,
`master_correlation`) is translated directly.  The collaborator modules
`preprocessing` and `helper` are not part of the source tree; simple
collaborators (imputation, label encoding, single-valued-column dropping)
are modelled from the spec, while the remaining collaborators
(datetime derivation, null-dominated dropping, one-hot encoding, outlier
removal, feature ranking, the column-type heuristics and the three
correlation statistics) are kept abstract as parameters, so every theorem
quantifies over all of their possible behaviours.
-/

set_option autoImplicit false
set_option linter.unusedVariables false

/-- A cell value of a column: a numeric entry or a null (`none`). -/
abbrev Val := Option Int

/-- A single dataframe column: an ordered list of values. -/
abbrev Col := List Val

/-- A pandas-style dataframe: named columns in order.  Row alignment is by
position inside each column. -/
abbrev DF := List (String × Col)

/-- Column labels of a dataframe, in order. -/
def dfNames (df : DF) : List String := df.map Prod.fst

/-- Look up a column by name (first match, as in a dataframe with unique
column labels). -/
def dfFind (df : DF) (n : String) : Option Col :=
  (df.find? (fun p => p.1 == n)).map (fun p => p.2)

/-- Projection `df[cols]`: keep the listed columns, in the listed order.
Names that are not present are skipped (the verified properties never
depend on the pandas `KeyError` path). -/
def dfSelect (df : DF) (cols : List String) : DF :=
  cols.filterMap (fun n => (dfFind df n).map (fun c => (n, c)))

/-- Column access `df[n]`, defaulting to the empty column when absent. -/
def dfCol (df : DF) (n : String) : Col := (dfFind df n).getD []

/-- Python string lowercasing (`str.lower`), modelled as lowercasing each
character. -/
def pyLower (s : String) : String := ⟨s.data.map Char.toLower⟩

/-- Modelled from the spec: the central tendency used by the Imputer
(`preprocessing.impute_nulls`, not in the source tree) is a representative
of the column's non-null values; we take the most frequent one. -/
def modeVal (l : List Int) : Int :=
  l.foldl (fun best x => if l.count best < l.count x then x else best) (l.headD 0)

/-- Modelled from the spec: the Imputer collaborator
(`impute(column_or_dataset, method) -> dataset`) replaces every null by the
column's central tendency and preserves column names and order.  The two
method choices (central tendency / nearest neighbours) only change the
filled-in value, which none of the verified properties depend on. -/
def impute_nulls (df : DF) (method : String) : DF :=
  df.map (fun p => (p.1, p.2.map (fun v => some (v.getD (modeVal (p.2.filterMap id))))))

/-- Modelled from the spec: the SingleValueColumnDropper collaborator
(`preprocessing.drop_single_valued_cols`) drops every column with exactly
one distinct value. -/
def drop_single_valued_cols (df : DF) : DF :=
  df.filter (fun p => p.2.dedup.length != 1)

/-- Modelled from the spec: label encoding maps each distinct value of a
column to an integer code; codes are positions in the column's list of
distinct values, so the LabelMap is that list. -/
def label_encode_col (c : Col) : List Val × Col :=
  (c.dedup, c.map (fun v => some (Int.ofNat (c.dedup.indexOf v))))

/-- Modelled from the spec: the Encoder collaborator
(`preprocessing.get_label_encoded_df`) label-encodes each column of the
dataframe, preserving names and order, and returns the LabelMaps together
with the encoded dataframe. -/
def get_label_encoded_df (df : DF) (categorical_threshold : Rat) :
    List (String × List Val) × DF :=
  (df.map (fun p => (p.1, (label_encode_col p.2).1)),
   df.map (fun p => (p.1, (label_encode_col p.2).2)))

/-- Modelled from the spec: `preprocessing.label_encode` label-encodes the
single column named `col` in place and returns its LabelMap with the
updated dataframe. -/
def label_encode (df : DF) (col : String) : List Val × DF :=
  ((label_encode_col (dfCol df col)).1,
   df.map (fun p => if p.1 = col then (p.1, (label_encode_col (dfCol df col)).2) else p))

/-- Python-level failures surfaced by the module, plus the error taxonomy
named by the spec (`ParameterError`, `InvalidInputError`). -/
inductive PyError
  | paramError
  | typeError
  | unboundLocal
  | nameError
  | invalidInput
deriving DecidableEq

/-- Abstract external collaborators of `automl.preprocess` (functions of the
`preprocessing` and `helper` modules that are outside the source tree and
whose behaviour the verified properties do not depend on). -/
structure Collab where
  derive_from_datetime : DF → DF
  drop_null_fields : DF → Rat → DF
  check_categorical_col : Col → Rat → Bool
  check_numeric_col : Col → Bool
  get_ohe_df : DF → List String → Rat → DF
  auto_remove_outliers : DF → List String → Rat → DF
  get_correlated_features : DF → String → String → List Rat × List String

/-- Abstract correlation statistics (`preprocessing.pearson_corr`,
`preprocessing.cramersv_corr`, `preprocessing.kendalltau_corr`). -/
structure Stats where
  pearson : Col → Col → Rat
  cramersv : Col → Col → Rat
  kendalltau : Col → Col → Rat

/-- One iteration of the column-classification loop of
`automl.preprocess` (automl.py lines 85-97): skip the target column, then
append to the categorical list when the categorical check passes and the
column is not pinned continuous, else append to the continuous list when
the numeric check passes and the column is not pinned categorical. -/
def classify_step (ext : Collab) (thr : Rat) (dcont dcat : List String)
    (skip : Option String) (acc : List String × List String) (p : String × Col) :
    List String × List String :=
  if skip = some p.1 then acc
  else if ext.check_categorical_col p.2 thr = true ∧ ¬ p.1 ∈ dcont then
    (acc.1 ++ [p.1], acc.2)
  else if ext.check_numeric_col p.2 = true ∧ ¬ p.1 ∈ dcat then
    (acc.1, acc.2 ++ [p.1])
  else acc

/-- The forced-override loops of `automl.preprocess` (automl.py lines
98-103): append every pinned column that is not already present. -/
def add_defined (cols defined : List String) : List String :=
  defined.foldl (fun acc c => if c ∈ acc then acc else acc ++ [c]) cols

/-- The full column-classification step of `automl.preprocess` (automl.py
lines 83-103): heuristic split followed by the forced-override loops. -/
def split_cols (ext : Collab) (ds : DF) (thr : Rat) (dcont dcat : List String)
    (skip : Option String) : List String × List String :=
  let r := ds.foldl (classify_step ext thr dcont dcat skip) ([], [])
  (add_defined r.1 dcat, add_defined r.2 dcont)

/-- Stages of `automl.preprocess` before classification (automl.py lines
70-80): reset index (a no-op for the column-level model), optional datetime
derivation, optional null-dominated-column dropping, then dropping of
single-valued columns. -/
def pp_stage1 (ext : Collab) (dataset : DF) (ddt dnd : Bool) (nathr : Rat) : DF :=
  let ds1 := if ddt then ext.derive_from_datetime dataset else dataset
  let ds2 := if dnd then ext.drop_null_fields ds1 nathr else ds1
  drop_single_valued_cols ds2

/-- Classification as invoked by `automl.preprocess`: the supervised loop
skips the target column, the unsupervised loop does not (automl.py lines
85-97). -/
def pp_split (ext : Collab) (ds : DF) (lt : String) (tv : Option String)
    (thr : Rat) (dcont dcat : List String) : List String × List String :=
  split_cols ext ds thr dcont dcat (if (pyLower lt) = "supervised" then tv else none)

/-- The one-hot-encoding fix-up loop of `automl.preprocess` (automl.py
lines 113-120): after one-hot encoding, label-encode every ignored column
that is not numeric, collecting its LabelMap. -/
def ohe_with_ignore (ext : Collab) (cdf0 : DF) (ohecols : List String) (thr : Rat) :
    List (String × List Val) × DF :=
  ohecols.foldl
    (fun acc col =>
      if ext.check_numeric_col (dfCol acc.2 col) = true then acc
      else (acc.1 ++ [(col, (label_encode acc.2 col).1)], (label_encode acc.2 col).2))
    ([], ext.get_ohe_df cdf0 ohecols thr)

/-- `automl.preprocess` up to the merged dataset (automl.py lines 70-130,
excluding the log-transform line): stage-1 cleanup, classification,
categorical imputation and encoding, continuous imputation, merge. -/
def pp_cleansed (ext : Collab) (dataset : DF) (lt : String) (tv : Option String)
    (inm tc : String) (thr : Rat) (ohe dcont dcat : List String)
    (ddt dnd : Bool) (nathr : Rat) : List (String × List Val) × DF :=
  let ds := pp_stage1 ext dataset ddt dnd nathr
  let split := pp_split ext ds lt tv thr dcont dcat
  let catds := impute_nulls (dfSelect ds split.1) ("central_tendency")
  let enc :=
    if (pyLower tc) = "label_encoding" then get_label_encoded_df catds thr
    else if (pyLower tc) = "one_hot_encoding" then ohe_with_ignore ext catds ohe thr
    else ([], catds)
  let contds := impute_nulls (dfSelect ds split.2) inm
  (enc.1, enc.2 ++ contds)

/-- The supervised merge of `automl.preprocess` (automl.py lines 131-141):
attach the target column, label-encode it when the target type is
categorical, then optionally remove outliers. -/
def pp_mapped (ext : Collab) (dataset : DF) (lt : String)
    (tv tt : Option String) (inm tc : String) (thr : Rat) (ro : Bool)
    (ohe dcont dcat : List String) (ddt dnd : Bool) (nathr : Rat) :
    List (String × List Val) × DF :=
  let c := pp_cleansed ext dataset lt tv inm tc thr ohe dcont dcat ddt dnd nathr
  let ds := pp_stage1 ext dataset ddt dnd nathr
  let tvs := tv.getD ""
  let tdf := dfSelect ds [tvs]
  let enc :=
    if pyLower (tt.getD "") = "categorical" then
      (c.1 ++ [(tvs, (label_encode tdf tvs).1)], (label_encode tdf tvs).2)
    else (c.1, tdf)
  let mapped := c.2 ++ enc.2
  (enc.1, if ro then ext.auto_remove_outliers mapped [tvs] thr else mapped)

/-- Translation of `automl.preprocess` (automl.py lines 17-153).  The four
validation checks come first (lines 57-68).  When `log_transform` is not
`None`, line 127 calls `preprocessing.log_transform(method=..,
categorical_threshold=..)` without the dataset argument; modelled from the
spec, that collaborator's contract is `transform(dataset, params) ->
dataset` with the dataset as a required argument, so the call raises a
`TypeError` before anything is returned.  When the supervised branch is
taken with `feature_selection` false, the local `final_dataset` is never
assigned and the `return` raises an unbound-local error. -/
def preprocess (ext : Collab) (dataset : DF)
    (learning_type : String) (target_variable target_type : Option String)
    (impute_null_method tranform_categorical : String)
    (categorical_threshold : Rat) (remove_outliers : Bool)
    (log_transform : Option String) (drop_null_dominated : Bool)
    (dropna_threshold : Rat) (derive_from_datetime : Bool)
    (ohe_ignore_cols : List String) (feature_selection : Bool)
    (define_continuous_cols define_categorical_cols : List String) :
    Except PyError (List (String × List Val) × DF) :=
  if ¬ (pyLower learning_type) ∈ (["supervised", "unsupervised"] : List String) then
    .error .paramError
  else if ¬ (pyLower tranform_categorical) ∈ (["label_encoding", "one_hot_encoding"] : List String) then
    .error .paramError
  else if (pyLower learning_type) = "supervised" ∧ target_variable = none then
    .error .paramError
  else if (pyLower learning_type) = "supervised" ∧ target_type = none then
    .error .paramError
  else
    match log_transform with
    | some _ => .error .typeError
    | none =>
      if (pyLower learning_type) = "supervised" then
        if feature_selection then
          let m := pp_mapped ext dataset learning_type target_variable target_type
            impute_null_method tranform_categorical categorical_threshold
            remove_outliers ohe_ignore_cols define_continuous_cols
            define_categorical_cols derive_from_datetime drop_null_dominated
            dropna_threshold
          let tvs := target_variable.getD ""
          let r := ext.get_correlated_features m.2 tvs (target_type.getD "")
          .ok (m.1, dfSelect m.2 (r.2 ++ [tvs]))
        else .error .unboundLocal
      else if (pyLower learning_type) = "unsupervised" then
        let c := pp_cleansed ext dataset learning_type target_variable
          impute_null_method tranform_categorical categorical_threshold
          ohe_ignore_cols define_continuous_cols define_categorical_cols
          derive_from_datetime drop_null_dominated dropna_threshold
        let fin := if remove_outliers then
            ext.auto_remove_outliers c.2 [] categorical_threshold
          else c.2
        .ok (c.1, fin)
      else .error .unboundLocal

/-- The sklearn scaler chosen by `automl.scale_transform`. -/
inductive Scaler
  | minMaxScaler
  | standardScaler
  | robustScaler
  | maxAbsScaler
deriving DecidableEq

/-- Abstract sklearn collaborator: fitting a scaler to a dataframe and
transforming it into an array. -/
structure ScaleExt where
  fit_transform : Scaler → DF → List (List Rat)

/-- Translation of `automl.scale_transform` (automl.py lines 156-177).  The
method comparison on line 168 is against the misspelled literal
`'mimmax'`; when no branch matches, the local `scaler` is never assigned
and line 176 raises an unbound-local error. -/
def scale_transform (sk : ScaleExt) (dataset : DF) (method : String) :
    Except PyError (List (List Rat)) :=
  let scaler : Option Scaler :=
    if (pyLower method) = "mimmax" then some Scaler.minMaxScaler
    else if (pyLower method) = "standard" then some Scaler.standardScaler
    else if (pyLower method) = "robust" then some Scaler.robustScaler
    else if (pyLower method) = "maxabs" then some Scaler.maxAbsScaler
    else none
  match scaler with
  | none => .error .unboundLocal
  | some s => .ok (sk.fit_transform s dataset)

/-- The cell store of the correlation dataframe: assignments
`corr_df.loc[i, j] = v` are prepended, lookup takes the latest one. -/
abbrev CellList := List ((String × String) × Rat)

/-- Look up the latest value written to cell `(i, j)`. -/
def getCell : CellList → String → String → Option Rat
  | [], _, _ => none
  | e :: rest, i, j => if e.1.1 = i ∧ e.1.2 = j then some e.2 else getCell rest i j

/-- Write value `v` to cell `(i, j)` (`corr_df.loc[i, j] = v`). -/
def setCell (m : CellList) (i j : String) (v : Rat) : CellList := ((i, j), v) :: m

/-- The correlation dataframe returned by `automl.master_correlation`:
its index (equal to its column labels) and its cells. -/
structure CorrDF where
  index : List String
  cells : CellList
deriving DecidableEq

/-- All ordered pairs `(a, b)` with `a` strictly before `b`, mirroring
`itertools.combinations(column_list, 2)`. -/
def combinations2 : List String → List (String × String)
  | [] => []
  | x :: xs => xs.map (fun y => (x, y)) ++ combinations2 xs

/-- The diagonal initialisation loop of `automl.master_correlation`
(automl.py lines 221-222): every diagonal cell is set to 1. -/
def mc_diag (l : List String) : CellList :=
  l.foldl (fun m c => setCell m c c 1) []

/-- The statistic dispatch of `automl.master_correlation` (automl.py lines
227-234): Pearson for two continuous columns, Cramers V for two
categorical columns, Kendalls Tau for a mixed pair; `none` when neither
branch matches (then Python would leave `corr_value` unassigned). -/
def mc_dispatch (stats : Stats) (cat cont : List String) (data : DF)
    (col1 col2 : String) : Option Rat :=
  if col1 ∈ cont ∧ col2 ∈ cont then
    some (stats.pearson (dfCol data col1) (dfCol data col2))
  else if col1 ∈ cat ∧ col2 ∈ cat then
    some (stats.cramersv (dfCol data col1) (dfCol data col2))
  else if col1 ∈ cont ∧ col2 ∈ cat then
    some (stats.kendalltau (dfCol data col1) (dfCol data col2))
  else if col1 ∈ cat ∧ col2 ∈ cont then
    some (stats.kendalltau (dfCol data col1) (dfCol data col2))
  else none

/-- One iteration of the pair loop of `automl.master_correlation`
(automl.py lines 224-236).  The first component of the state is the
current value of the Python local `corr_value`: when the dispatch falls
through, the stale value is reused, and when there is no stale value the
lookup of the unassigned local raises a name error. -/
def mc_pair_step (stats : Stats) (cat cont : List String) (data : DF)
    (st : Option Rat × CellList) (comb : String × String) :
    Except PyError (Option Rat × CellList) :=
  match mc_dispatch stats cat cont data comb.1 comb.2 with
  | some v => .ok (some v, setCell (setCell st.2 comb.1 comb.2 v) comb.2 comb.1 v)
  | none =>
    match st.1 with
    | some v => .ok (some v, setCell (setCell st.2 comb.1 comb.2 v) comb.2 comb.1 v)
    | none => .error .nameError

/-- The pair loop of `automl.master_correlation` over all column
combinations. -/
def mc_loop (stats : Stats) (cat cont : List String) (data : DF) :
    List (String × String) → Option Rat × CellList →
    Except PyError (Option Rat × CellList)
  | [], st => .ok st
  | comb :: rest, st =>
    match mc_pair_step stats cat cont data st comb with
    | .error e => .error e
    | .ok st2 => mc_loop stats cat cont data rest st2

/-- The classification loop of `automl.master_correlation` (automl.py
lines 198-202): the same if/elif split as in `preprocess`, with no target
to skip and no override lists (the function's `define_continuous_cols`
and `define_categorical_cols` parameters are never used). -/
def mc_split (ext : Collab) (ds : DF) (thr : Rat) : List String × List String :=
  ds.foldl (classify_step ext thr [] [] none) ([], [])

/-- The dataset entering the pair loop of `automl.master_correlation`
(automl.py lines 204-211): label-encoded categorical columns concatenated
with the continuous columns, single-valued columns dropped, nulls
imputed.  The encoding call on line 207 uses the collaborator's default
threshold, not the caller-supplied one. -/
def mc_data (ext : Collab) (ds : DF) (thr : Rat) : DF :=
  impute_nulls
    (drop_single_valued_cols
      ((get_label_encoded_df (dfSelect ds (mc_split ext ds thr).1) (3 / 10)).2 ++
        dfSelect ds (mc_split ext ds thr).2))
    ("central_tendency")

/-- The `column_list` of `automl.master_correlation` (automl.py line
213). -/
def mc_index (ext : Collab) (ds : DF) (thr : Rat) : List String :=
  dfNames (mc_data ext ds thr)

/-- Translation of `automl.master_correlation` (automl.py lines 180-237):
classify columns, build the working dataset, set the diagonal to 1, then
fill both `(col1, col2)` and `(col2, col1)` for every combination with
the statistic selected by the pair's roles.  The function performs no
input validation of its own; the only failure mode is the name error on a
pair whose columns match no dispatch branch before any value was
computed. -/
def master_correlation (ext : Collab) (stats : Stats) (dataset : DF)
    (categorical_threshold : Rat)
    (define_continuous_cols define_categorical_cols : List String) :
    Except PyError CorrDF :=
  match mc_loop stats (mc_split ext dataset categorical_threshold).1
      (mc_split ext dataset categorical_threshold).2
      (mc_data ext dataset categorical_threshold)
      (combinations2 (mc_index ext dataset categorical_threshold))
      (none, mc_diag (mc_index ext dataset categorical_threshold)) with
  | .error e => .error e
  | .ok st => .ok ⟨mc_index ext dataset categorical_threshold, st.2⟩

/-- Whether an `Except` result is a success. -/
def exOk {α : Type} : Except PyError α → Bool
  | .ok _ => true
  | .error _ => false

deriving instance DecidableEq for Except

/-- A concrete collaborator instance for witnesses: identity transforms, no
column passes the categorical check, every column passes the numeric
check, and no feature is reported as correlated. -/
def extId : Collab :=
  ⟨id, fun df _ => df, fun _ _ => false, fun _ => true, fun df _ _ => df,
   fun df _ _ => df, fun _ _ _ => ([], [])⟩

/-- A concrete collaborator instance for witnesses: as `extId`, but a
column is categorical exactly when it contains the value 1. -/
def extM : Collab :=
  ⟨id, fun df _ => df, fun c _ => c.contains (some 1), fun _ => true, fun df _ _ => df,
   fun df _ _ => df, fun _ _ _ => ([], [])⟩

/-- A concrete collaborator instance for witnesses: every column passes the
categorical check. -/
def extC : Collab :=
  ⟨id, fun df _ => df, fun _ _ => true, fun _ => true, fun df _ _ => df,
   fun df _ _ => df, fun _ _ _ => ([], [])⟩

/-- Concrete statistics for witnesses, chosen pairwise distinct so the
dispatch can be read off the result. -/
def statsK : Stats := ⟨fun _ _ => 10, fun _ _ => 20, fun _ _ => 30⟩

/-- C4: `preprocess` validates its configuration before touching the
dataset: an invalid learning type, an invalid categorical-encoding method,
or a supervised call with a missing target variable or target type yields
`ParameterError`, for every dataset and every collaborator behaviour (so
no data transformation can have been applied). -/
theorem claim_C4 (ext : Collab) (dataset : DF) (lt : String)
    (tv tt : Option String) (inm tc : String) (thr : Rat) (ro : Bool)
    (logt : Option String) (dnd : Bool) (nathr : Rat) (ddt : Bool)
    (ohe : List String) (fs : Bool) (dcont dcat : List String)
    (h : ¬ (pyLower lt) ∈ (["supervised", "unsupervised"] : List String) ∨
         ¬ (pyLower tc) ∈ (["label_encoding", "one_hot_encoding"] : List String) ∨
         ((pyLower lt) = "supervised" ∧ (tv = none ∨ tt = none))) :
    preprocess ext dataset lt tv tt inm tc thr ro logt dnd nathr ddt ohe fs
      dcont dcat = .error .paramError := by
  unfold preprocess
  rcases h with h | h | ⟨hs, h⟩
  · rw [if_pos h]
  · by_cases h1 : ¬ (pyLower lt) ∈ (["supervised", "unsupervised"] : List String)
    · rw [if_pos h1]
    · rw [if_neg h1, if_pos h]
  · by_cases h1 : ¬ (pyLower lt) ∈ (["supervised", "unsupervised"] : List String)
    · rw [if_pos h1]
    · by_cases h2 : ¬ (pyLower tc) ∈ (["label_encoding", "one_hot_encoding"] : List String)
      · rw [if_neg h1, if_pos h2]
      · rcases h with htv | htt
        · rw [if_neg h1, if_neg h2, if_pos ⟨hs, htv⟩]
        · by_cases h3 : tv = none
          · rw [if_neg h1, if_neg h2, if_pos ⟨hs, h3⟩]
          · rw [if_neg h1, if_neg h2, if_neg (fun hc => h3 hc.2), if_pos ⟨hs, htt⟩]

/-- Witness for C4 at a concrete invalid configuration. -/
theorem claim_C4_witness :
    (¬ pyLower ("banana") ∈ (["supervised", "unsupervised"] : List String) ∨
     ¬ pyLower ("label_encoding") ∈ (["label_encoding", "one_hot_encoding"] : List String) ∨
     (pyLower ("banana") = "supervised" ∧
       ((none : Option String) = none ∨ (none : Option String) = none))) ∧
    preprocess extId [] ("banana") none none ("central_tendency")
      ("label_encoding") (3 / 10) false none false (7 / 10) false [] false [] [] =
      .error .paramError :=
  ⟨Or.inl (by decide),
   claim_C4 extId [] ("banana") none none ("central_tendency") ("label_encoding")
     (3 / 10) false none false (7 / 10) false [] false [] [] (Or.inl (by decide))⟩

/-- C8: the method dispatch of `scale_transform`.  The documented name
`minmax` matches no branch (the code tests the misspelling `mimmax`), so
`scale_transform` with method `minmax` raises an unbound-local error
instead of returning the min-max-scaled array; the four names the code
actually accepts are `mimmax`, `standard`, `robust` and `maxabs`. -/
theorem claim_C8 (sk : ScaleExt) (dataset : DF) :
    scale_transform sk dataset ("minmax") = .error .unboundLocal ∧
    scale_transform sk dataset ("mimmax") = .ok (sk.fit_transform Scaler.minMaxScaler dataset) ∧
    scale_transform sk dataset ("standard") = .ok (sk.fit_transform Scaler.standardScaler dataset) ∧
    scale_transform sk dataset ("robust") = .ok (sk.fit_transform Scaler.robustScaler dataset) ∧
    scale_transform sk dataset ("maxabs") = .ok (sk.fit_transform Scaler.maxAbsScaler dataset) :=
  ⟨rfl, rfl, rfl, rfl, rfl⟩

/-- C9: for every valid supervised configuration with feature selection
disabled (and no log transform, which would fail earlier), `preprocess`
reaches its return with the local holding the final dataset never
assigned, so the call fails with an unbound-local error instead of
returning a pair. -/
theorem claim_C9 (ext : Collab) (dataset : DF) (tv tt : String)
    (inm tc : String) (thr : Rat) (ro : Bool) (dnd : Bool) (nathr : Rat)
    (ddt : Bool) (ohe : List String) (dcont dcat : List String)
    (htc : (pyLower tc) ∈ (["label_encoding", "one_hot_encoding"] : List String)) :
    preprocess ext dataset ("supervised") (some tv) (some tt) inm tc thr ro none
      dnd nathr ddt ohe false dcont dcat = .error .unboundLocal := by
  unfold preprocess
  rw [if_neg (not_not_intro (by decide)), if_neg (not_not_intro htc),
    if_neg (fun hc => Option.noConfusion hc.2), if_neg (fun hc => Option.noConfusion hc.2)]
  rfl

/-- Witness for C9 at a concrete valid supervised configuration. -/
theorem claim_C9_witness :
    pyLower ("label_encoding") ∈ (["label_encoding", "one_hot_encoding"] : List String) ∧
    preprocess extId [(("a"), [some 1, some 2]), (("t"), [some 0, some 1])]
      ("supervised") (some ("t")) (some ("continuous")) ("central_tendency")
      ("label_encoding") (3 / 10) false none false (7 / 10) false [] false [] [] =
      .error .unboundLocal :=
  ⟨by decide,
   claim_C9 extId [(("a"), [some 1, some 2]), (("t"), [some 0, some 1])] ("t")
     ("continuous") ("central_tendency") ("label_encoding") (3 / 10) false false
     (7 / 10) false [] [] [] (by decide)⟩

/-- C10: whenever `log_transform` is not `None` and the configuration is
otherwise valid, the call on automl.py line 127 omits the required dataset
argument of the log-transform collaborator, so `preprocess` fails with a
type error on every input: the imputed continuous data never reaches the
transform. -/
theorem claim_C10 (ext : Collab) (dataset : DF) (lt : String)
    (tv tt : Option String) (inm tc : String) (thr : Rat) (ro : Bool)
    (m : String) (dnd : Bool) (nathr : Rat) (ddt : Bool) (ohe : List String)
    (fs : Bool) (dcont dcat : List String)
    (hlt : (pyLower lt) ∈ (["supervised", "unsupervised"] : List String))
    (htc : (pyLower tc) ∈ (["label_encoding", "one_hot_encoding"] : List String))
    (hsup : (pyLower lt) = "supervised" → tv ≠ none ∧ tt ≠ none) :
    preprocess ext dataset lt tv tt inm tc thr ro (some m) dnd nathr ddt ohe fs
      dcont dcat = .error .typeError := by
  unfold preprocess
  rw [if_neg (not_not_intro hlt), if_neg (not_not_intro htc),
    if_neg (fun hc => (hsup hc.1).1 hc.2), if_neg (fun hc => (hsup hc.1).2 hc.2)]

/-- Witness for C10 at a concrete configuration with a log transform. -/
theorem claim_C10_witness :
    pyLower ("unsupervised") ∈ (["supervised", "unsupervised"] : List String) ∧
    preprocess extId [(("a"), [some 1, some 2])] ("unsupervised") none none
      ("central_tendency") ("label_encoding") (3 / 10) false (some ("yeojohnson"))
      false (7 / 10) false [] true [] [] = .error .typeError :=
  ⟨by decide,
   claim_C10 extId [(("a"), [some 1, some 2])] ("unsupervised") none none
     ("central_tendency") ("label_encoding") (3 / 10) false ("yeojohnson") false
     (7 / 10) false [] true [] [] (by decide) (by decide)
     (fun h => absurd h (by decide))⟩

/-- A column name is collected by the categorical side of the
classification loop exactly when some matching dataset entry passes the
categorical check, is not the skipped target, and is not pinned
continuous. -/
lemma mem_classify_fold_cat (ext : Collab) (thr : Rat) (dcont dcat : List String)
    (skip : Option String) (c : String) :
    ∀ (ds : List (String × Col)) (acc : List String × List String),
      (c ∈ (ds.foldl (classify_step ext thr dcont dcat skip) acc).1 ↔
        c ∈ acc.1 ∨ ∃ p, p ∈ ds ∧ p.1 = c ∧ skip ≠ some c ∧
          ext.check_categorical_col p.2 thr = true ∧ ¬ c ∈ dcont) := by
  intro ds
  induction ds with
  | nil => intro acc; simp
  | cons p ds ih =>
    intro acc
    rw [List.foldl_cons, ih]
    simp only [List.mem_cons, classify_step]
    split_ifs with h1 h2 h3
    · aesop
    · aesop
    · aesop
    · aesop

/-- A column name is collected by the continuous side of the
classification loop exactly when some matching dataset entry fails the
categorical branch, passes the numeric check, is not the skipped target,
and is not pinned categorical. -/
lemma mem_classify_fold_cont (ext : Collab) (thr : Rat) (dcont dcat : List String)
    (skip : Option String) (c : String) :
    ∀ (ds : List (String × Col)) (acc : List String × List String),
      (c ∈ (ds.foldl (classify_step ext thr dcont dcat skip) acc).2 ↔
        c ∈ acc.2 ∨ ∃ p, p ∈ ds ∧ p.1 = c ∧ skip ≠ some c ∧
          ¬ (ext.check_categorical_col p.2 thr = true ∧ ¬ c ∈ dcont) ∧
          ext.check_numeric_col p.2 = true ∧ ¬ c ∈ dcat) := by
  intro ds
  induction ds with
  | nil => intro acc; simp
  | cons p ds ih =>
    intro acc
    rw [List.foldl_cons, ih]
    simp only [List.mem_cons, classify_step]
    split_ifs with h1 h2 h3
    · aesop
    · aesop
    · aesop
    · aesop

/-- Two dataset entries with the same column label are the same entry when
the labels are unique. -/
lemma key_unique {ds : DF} (hnd : (dfNames ds).Nodup) {p q : String × Col}
    (hp : p ∈ ds) (hq : q ∈ ds) (h : p.1 = q.1) : p = q :=
  List.inj_on_of_nodup_map (by simpa [dfNames] using hnd) hp hq h

/-- Membership in the forced-override accumulation. -/
lemma mem_add_defined (c : String) :
    ∀ (defined cols : List String),
      (c ∈ add_defined cols defined ↔ c ∈ cols ∨ c ∈ defined) := by
  intro defined
  induction defined with
  | nil => intro cols; simp [add_defined]
  | cons d ds ih =>
    intro cols
    have h1 : add_defined cols (d :: ds) =
        add_defined (if d ∈ cols then cols else cols ++ [d]) ds := by
      simp [add_defined]
    rw [h1, ih]
    by_cases hd : d ∈ cols
    · simp only [if_pos hd, List.mem_cons]
      constructor
      · rintro (h | h)
        · exact Or.inl h
        · exact Or.inr (Or.inr h)
      · rintro (h | rfl | h)
        · exact Or.inl h
        · exact Or.inl hd
        · exact Or.inr h
    · simp only [if_neg hd, List.mem_append, List.mem_singleton, List.mem_cons]
      tauto

/-- Membership in the categorical result of `split_cols`. -/
lemma mem_split_cols_cat (ext : Collab) (ds : DF) (thr : Rat)
    (dcont dcat : List String) (skip : Option String) (c : String) :
    c ∈ (split_cols ext ds thr dcont dcat skip).1 ↔
      (∃ p, p ∈ ds ∧ p.1 = c ∧ skip ≠ some c ∧
        ext.check_categorical_col p.2 thr = true ∧ ¬ c ∈ dcont) ∨ c ∈ dcat := by
  unfold split_cols
  rw [mem_add_defined, mem_classify_fold_cat]
  simp

/-- Membership in the continuous result of `split_cols`. -/
lemma mem_split_cols_cont (ext : Collab) (ds : DF) (thr : Rat)
    (dcont dcat : List String) (skip : Option String) (c : String) :
    c ∈ (split_cols ext ds thr dcont dcat skip).2 ↔
      (∃ p, p ∈ ds ∧ p.1 = c ∧ skip ≠ some c ∧
        ¬ (ext.check_categorical_col p.2 thr = true ∧ ¬ c ∈ dcont) ∧
        ext.check_numeric_col p.2 = true ∧ ¬ c ∈ dcat) ∨ c ∈ dcont := by
  unfold split_cols
  rw [mem_add_defined, mem_classify_fold_cont]
  simp

/-- Membership in the categorical list of `master_correlation`'s
classification. -/
lemma mem_mc_split_cat (ext : Collab) (ds : DF) (thr : Rat) (c : String) :
    c ∈ (mc_split ext ds thr).1 ↔
      ∃ p, p ∈ ds ∧ p.1 = c ∧ ext.check_categorical_col p.2 thr = true := by
  unfold mc_split
  rw [mem_classify_fold_cat]
  simp

/-- Membership in the continuous list of `master_correlation`'s
classification. -/
lemma mem_mc_split_cont (ext : Collab) (ds : DF) (thr : Rat) (c : String) :
    c ∈ (mc_split ext ds thr).2 ↔
      ∃ p, p ∈ ds ∧ p.1 = c ∧ ¬ ext.check_categorical_col p.2 thr = true ∧
        ext.check_numeric_col p.2 = true := by
  unfold mc_split
  rw [mem_classify_fold_cont]
  simp

/-- With unique column labels and disjoint override lists, no column is
assigned both roles by `split_cols`. -/
lemma split_cols_not_both (ext : Collab) (ds : DF) (thr : Rat)
    (dcont dcat : List String) (skip : Option String)
    (hnd : (dfNames ds).Nodup) (hdisj : ∀ x, x ∈ dcat → ¬ x ∈ dcont)
    (c : String) :
    ¬ (c ∈ (split_cols ext ds thr dcont dcat skip).1 ∧
       c ∈ (split_cols ext ds thr dcont dcat skip).2) := by
  rintro ⟨h1, h2⟩
  rw [mem_split_cols_cat] at h1
  rw [mem_split_cols_cont] at h2
  rcases h1 with ⟨p, hp, hpc, _, hcat, hdcont⟩ | h1
  · rcases h2 with ⟨q, hq, hqc, _, hncat, _, _⟩ | h2
    · have : p = q := key_unique hnd hp hq (hpc.trans hqc.symm)
      exact hncat ⟨this ▸ hcat, hdcont⟩
    · exact hdcont h2
  · rcases h2 with ⟨q, hq, hqc, _, _, _, hdcat⟩ | h2
    · exact hdcat h1
    · exact hdisj c h1 h2

/-- With unique column labels, no column is assigned both roles by the
classification of `master_correlation`. -/
lemma mc_split_not_both (ext : Collab) (ds : DF) (thr : Rat)
    (hnd : (dfNames ds).Nodup) (c : String) :
    ¬ (c ∈ (mc_split ext ds thr).1 ∧ c ∈ (mc_split ext ds thr).2) := by
  rintro ⟨h1, h2⟩
  rw [mem_mc_split_cat] at h1
  rw [mem_mc_split_cont] at h2
  rcases h1 with ⟨p, hp, hpc, hcat⟩
  rcases h2 with ⟨q, hq, hqc, hncat, _⟩
  have : p = q := key_unique hnd hp hq (hpc.trans hqc.symm)
  exact hncat (this ▸ hcat)

/-- C3 (amended): when the dataset's column labels are unique and no name
appears in both override lists, the classification step of `preprocess`
assigns each column at most one role. -/
theorem claim_C3 (ext : Collab) (ds : DF) (thr : Rat)
    (dcont dcat : List String) (skip : Option String)
    (hnd : (dfNames ds).Nodup) (hdisj : ∀ x, x ∈ dcat → ¬ x ∈ dcont)
    (c : String) :
    ¬ (c ∈ (split_cols ext ds thr dcont dcat skip).1 ∧
       c ∈ (split_cols ext ds thr dcont dcat skip).2) :=
  split_cols_not_both ext ds thr dcont dcat skip hnd hdisj c

/-- Counterexample to C3 as stated: a column listed in both override lists
ends up in both the categorical and the continuous set. -/
theorem claim_C3_counterexample :
    ("a") ∈ (split_cols extC [(("a"), [some 0])] (3 / 10) [("a")] [("a")] none).1 ∧
    ("a") ∈ (split_cols extC [(("a"), [some 0])] (3 / 10) [("a")] [("a")] none).2 := by
  decide

/-- Witness for C3 (amended) at a concrete input. -/
theorem claim_C3_witness :
    (dfNames [(("a"), [some 0]), (("b"), [some 1])]).Nodup ∧
    (∀ x, x ∈ ([("a")] : List String) → ¬ x ∈ ([("b")] : List String)) ∧
    ¬ (("b") ∈ (split_cols extC [(("a"), [some 0]), (("b"), [some 1])] (3 / 10)
          [("b")] [("a")] none).1 ∧
       ("b") ∈ (split_cols extC [(("a"), [some 0]), (("b"), [some 1])] (3 / 10)
          [("b")] [("a")] none).2) :=
  ⟨by decide, by decide,
   claim_C3 extC [(("a"), [some 0]), (("b"), [some 1])] (3 / 10) [("b")] [("a")]
     none (by decide) (by decide) ("b")⟩

/-- Names of a projection: the requested names that actually occur. -/
lemma dfNames_select (df : DF) :
    ∀ L : List String,
      dfNames (dfSelect df L) = L.filter (fun n => (dfFind df n).isSome) := by
  intro L
  induction L with
  | nil => simp [dfSelect, dfNames]
  | cons n L ih =>
    cases h : dfFind df n <;>
      simp [dfSelect, dfNames, List.filterMap_cons, h, List.filter_cons] <;>
      simpa [dfSelect, dfNames] using ih

/-- A projected name comes from the requested list. -/
lemma mem_dfNames_select {df : DF} {L : List String} {c : String}
    (h : c ∈ dfNames (dfSelect df L)) : c ∈ L := by
  rw [dfNames_select] at h
  exact (List.mem_filter.mp h).1

/-- Projection keeps unique requested names unique. -/
lemma dfNames_select_nodup (df : DF) {L : List String} (h : L.Nodup) :
    (dfNames (dfSelect df L)).Nodup := by
  rw [dfNames_select]
  exact h.filter _

/-- Label encoding preserves the column names. -/
lemma dfNames_gle (df : DF) (thr : Rat) :
    dfNames (get_label_encoded_df df thr).2 = dfNames df := by
  simp [get_label_encoded_df, dfNames]

/-- Imputation preserves the column names. -/
lemma dfNames_impute (df : DF) (m : String) :
    dfNames (impute_nulls df m) = dfNames df := by
  simp [impute_nulls, dfNames]

/-- Dropping single-valued columns yields a sublist of the names. -/
lemma dfNames_drop_sublist (df : DF) :
    List.Sublist (dfNames (drop_single_valued_cols df)) (dfNames df) :=
  (List.filter_sublist df).map Prod.fst

/-- Names of a concatenation. -/
lemma dfNames_append (a b : DF) : dfNames (a ++ b) = dfNames a ++ dfNames b :=
  List.map_append Prod.fst a b

/-- The classification step either leaves the accumulator unchanged or
appends the entry's name to exactly one side. -/
lemma classify_step_cases (ext : Collab) (thr : Rat) (dcont dcat : List String)
    (skip : Option String) (acc : List String × List String) (p : String × Col) :
    classify_step ext thr dcont dcat skip acc p = acc ∨
    classify_step ext thr dcont dcat skip acc p = (acc.1 ++ [p.1], acc.2) ∨
    classify_step ext thr dcont dcat skip acc p = (acc.1, acc.2 ++ [p.1]) := by
  unfold classify_step
  split_ifs <;> simp

/-- With unique dataset labels and a fresh accumulator, the classification
fold produces duplicate-free role lists. -/
lemma classify_fold_nodup (ext : Collab) (thr : Rat) (dcont dcat : List String)
    (skip : Option String) :
    ∀ (ds : List (String × Col)) (acc : List String × List String),
      acc.1.Nodup → acc.2.Nodup →
      (∀ p, p ∈ ds → ¬ p.1 ∈ acc.1 ∧ ¬ p.1 ∈ acc.2) →
      (dfNames ds).Nodup →
      ((ds.foldl (classify_step ext thr dcont dcat skip) acc).1.Nodup ∧
       (ds.foldl (classify_step ext thr dcont dcat skip) acc).2.Nodup) := by
  intro ds
  induction ds with
  | nil => intro acc h1 h2 _ _; exact ⟨h1, h2⟩
  | cons p ds ih =>
    intro acc h1 h2 hfresh hnd
    have hpd : ¬ p.1 ∈ dfNames ds := by
      have := hnd
      simp only [dfNames, List.map_cons, List.nodup_cons] at this
      exact this.1
    have hnd2 : (dfNames ds).Nodup := by
      have := hnd
      simp only [dfNames, List.map_cons, List.nodup_cons] at this
      exact this.2
    have hqstep : ∀ q, q ∈ ds → ¬ q.1 = p.1 := by
      intro q hq hqp
      exact hpd (hqp ▸ List.mem_map_of_mem Prod.fst hq)
    rw [List.foldl_cons]
    rcases classify_step_cases ext thr dcont dcat skip acc p with h | h | h <;> rw [h]
    · exact ih acc h1 h2 (fun q hq => hfresh q (List.mem_cons_of_mem p hq)) hnd2
    · refine ih _ ?_ h2 ?_ hnd2
      · refine List.Nodup.append h1 (List.nodup_singleton p.1) ?_
        intro x hx hx2
        rw [List.mem_singleton] at hx2
        exact (hfresh p (List.mem_cons_self p ds)).1 (hx2 ▸ hx)
      · intro q hq
        refine ⟨?_, (hfresh q (List.mem_cons_of_mem p hq)).2⟩
        rw [List.mem_append, List.mem_singleton]
        rintro (hc | hc)
        · exact (hfresh q (List.mem_cons_of_mem p hq)).1 hc
        · exact hqstep q hq hc
    · refine ih _ h1 ?_ ?_ hnd2
      · refine List.Nodup.append h2 (List.nodup_singleton p.1) ?_
        intro x hx hx2
        rw [List.mem_singleton] at hx2
        exact (hfresh p (List.mem_cons_self p ds)).2 (hx2 ▸ hx)
      · intro q hq
        refine ⟨(hfresh q (List.mem_cons_of_mem p hq)).1, ?_⟩
        rw [List.mem_append, List.mem_singleton]
        rintro (hc | hc)
        · exact (hfresh q (List.mem_cons_of_mem p hq)).2 hc
        · exact hqstep q hq hc

/-- The classification fold adds at most one name per dataset entry. -/
lemma classify_fold_length (ext : Collab) (thr : Rat) (dcont dcat : List String)
    (skip : Option String) :
    ∀ (ds : List (String × Col)) (acc : List String × List String),
      (ds.foldl (classify_step ext thr dcont dcat skip) acc).1.length +
        (ds.foldl (classify_step ext thr dcont dcat skip) acc).2.length ≤
        acc.1.length + acc.2.length + ds.length := by
  intro ds
  induction ds with
  | nil => intro acc; simp
  | cons p ds ih =>
    intro acc
    rw [List.foldl_cons]
    rcases classify_step_cases ext thr dcont dcat skip acc p with h | h | h <;>
      rw [h] <;>
      refine le_trans (ih _)
        (by simp only [List.length_append, List.length_cons, List.length_singleton,
              List.length_nil]; omega)

/-- The role lists of `master_correlation`'s classification are
duplicate-free when the dataset labels are. -/
lemma mc_split_nodup (ext : Collab) (ds : DF) (thr : Rat)
    (hnd : (dfNames ds).Nodup) :
    (mc_split ext ds thr).1.Nodup ∧ (mc_split ext ds thr).2.Nodup :=
  classify_fold_nodup ext thr [] [] none ds ([], [])
    List.nodup_nil List.nodup_nil (by simp) hnd

/-- Every column of `master_correlation`'s working dataset carries one of
the two roles. -/
lemma mc_index_sub (ext : Collab) (ds : DF) (thr : Rat) (c : String)
    (h : c ∈ mc_index ext ds thr) :
    c ∈ (mc_split ext ds thr).1 ∨ c ∈ (mc_split ext ds thr).2 := by
  unfold mc_index mc_data at h
  rw [dfNames_impute] at h
  have h2 := (dfNames_drop_sublist _).mem h
  rw [dfNames_append, List.mem_append, dfNames_gle] at h2
  rcases h2 with h2 | h2
  · exact Or.inl (mem_dfNames_select h2)
  · exact Or.inr (mem_dfNames_select h2)

/-- The index of `master_correlation`'s matrix has no duplicate names when
the input dataset has none. -/
lemma mc_index_nodup (ext : Collab) (ds : DF) (thr : Rat)
    (hnd : (dfNames ds).Nodup) : (mc_index ext ds thr).Nodup := by
  unfold mc_index mc_data
  rw [dfNames_impute]
  refine List.Nodup.sublist (dfNames_drop_sublist _) ?_
  rw [dfNames_append, dfNames_gle]
  refine List.Nodup.append (dfNames_select_nodup _ (mc_split_nodup ext ds thr hnd).1)
    (dfNames_select_nodup _ (mc_split_nodup ext ds thr hnd).2) ?_
  intro x hx hx2
  exact mc_split_not_both ext ds thr hnd x
    ⟨mem_dfNames_select hx, mem_dfNames_select hx2⟩

/-- The matrix index is no longer than the input dataset's column list. -/
lemma mc_index_length (ext : Collab) (ds : DF) (thr : Rat) :
    (mc_index ext ds thr).length ≤ ds.length := by
  unfold mc_index mc_data
  rw [dfNames_impute]
  refine le_trans (List.Sublist.length_le (dfNames_drop_sublist _)) ?_
  rw [dfNames_append, dfNames_gle, dfNames_select, dfNames_select]
  have hcat := List.length_filter_le (fun n => (dfFind ds n).isSome) (mc_split ext ds thr).1
  have hcont := List.length_filter_le (fun n => (dfFind ds n).isSome) (mc_split ext ds thr).2
  have hsplit := classify_fold_length ext thr [] [] none ds ([], [])
  simp only [List.length_append]
  unfold mc_split at *
  simp at hsplit
  omega

/-- Both components of a combination occur in the underlying list. -/
lemma combinations2_mem {l : List String} {p : String × String}
    (h : p ∈ combinations2 l) : p.1 ∈ l ∧ p.2 ∈ l := by
  induction l with
  | nil => simp [combinations2] at h
  | cons x xs ih =>
    simp only [combinations2, List.mem_append, List.mem_map] at h
    rcases h with ⟨y, hy, rfl⟩ | h
    · exact ⟨List.mem_cons_self x xs, List.mem_cons_of_mem x hy⟩
    · exact ⟨List.mem_cons_of_mem x (ih h).1, List.mem_cons_of_mem x (ih h).2⟩

/-- A list with at most one element has no combinations. -/
lemma combinations2_nil_of_short {l : List String} (h : l.length ≤ 1) :
    combinations2 l = [] := by
  match l, h with
  | [], _ => rfl
  | [x], _ => rfl

/-- The statistic dispatch succeeds whenever both columns carry a role. -/
lemma mc_dispatch_isSome (stats : Stats) (cat cont : List String) (data : DF)
    (col1 col2 : String) (h1 : col1 ∈ cat ∨ col1 ∈ cont)
    (h2 : col2 ∈ cat ∨ col2 ∈ cont) :
    ∃ v, mc_dispatch stats cat cont data col1 col2 = some v := by
  unfold mc_dispatch
  split_ifs <;> first | exact ⟨_, rfl⟩ | tauto

/-- The pair loop cannot fail when every combination's columns carry a
role. -/
lemma mc_loop_ok (stats : Stats) (cat cont : List String) (data : DF) :
    ∀ (combos : List (String × String)) (st : Option Rat × CellList),
      (∀ p, p ∈ combos →
        (p.1 ∈ cat ∨ p.1 ∈ cont) ∧ (p.2 ∈ cat ∨ p.2 ∈ cont)) →
      ∃ st2, mc_loop stats cat cont data combos st = .ok st2 := by
  intro combos
  induction combos with
  | nil => intro st _; exact ⟨st, rfl⟩
  | cons p rest ih =>
    intro st hmem
    obtain ⟨v, hv⟩ := mc_dispatch_isSome stats cat cont data p.1 p.2
      (hmem p (List.mem_cons_self p rest)).1 (hmem p (List.mem_cons_self p rest)).2
    obtain ⟨st2, h2⟩ := ih (some v, setCell (setCell st.2 p.1 p.2 v) p.2 p.1 v)
      (fun q hq => hmem q (List.mem_cons_of_mem p hq))
    refine ⟨st2, ?_⟩
    unfold mc_loop mc_pair_step
    rw [hv]
    exact h2

/-- `master_correlation` always returns a matrix, indexed by
`mc_index`. -/
lemma master_correlation_ok (ext : Collab) (stats : Stats) (ds : DF)
    (thr : Rat) (dcont dcat : List String) :
    ∃ cdf, master_correlation ext stats ds thr dcont dcat = .ok cdf ∧
      cdf.index = mc_index ext ds thr := by
  obtain ⟨st2, h⟩ := mc_loop_ok stats (mc_split ext ds thr).1
    (mc_split ext ds thr).2 (mc_data ext ds thr)
    (combinations2 (mc_index ext ds thr)) (none, mc_diag (mc_index ext ds thr))
    (by
      intro p hp
      have hm := combinations2_mem hp
      exact ⟨mc_index_sub ext ds thr p.1 hm.1, mc_index_sub ext ds thr p.2 hm.2⟩)
  unfold master_correlation
  rw [h]
  exact ⟨_, rfl, rfl⟩

/-- An entry surviving the single-valued-column drop was in the input. -/
lemma mem_drop_single {df : DF} {p : String × Col}
    (h : p ∈ drop_single_valued_cols df) : p ∈ df :=
  (List.mem_filter.mp h).1

/-- A column failing both heuristics never enters the matrix index of
`master_correlation`. -/
lemma not_mem_mc_index (ext : Collab) (ds : DF) (thr : Rat) (c : String)
    (hchk : ∀ p, p ∈ ds → p.1 = c →
      ext.check_categorical_col p.2 thr = false ∧
      ext.check_numeric_col p.2 = false) :
    ¬ c ∈ mc_index ext ds thr := by
  intro h
  rcases mc_index_sub ext ds thr c h with h2 | h2
  · rw [mem_mc_split_cat] at h2
    obtain ⟨p, hp, hpc, hcat⟩ := h2
    rw [(hchk p hp hpc).1] at hcat
    exact Bool.false_ne_true hcat
  · rw [mem_mc_split_cont] at h2
    obtain ⟨p, hp, hpc, _, hnum⟩ := h2
    rw [(hchk p hp hpc).2] at hnum
    exact Bool.false_ne_true hnum

/-- Evaluation of `preprocess` on the unsupervised, label-encoding,
no-outlier-removal, no-log-transform path. -/
lemma preprocess_unsup_label (ext : Collab) (ds : DF) (inm : String)
    (thr : Rat) (nathr : Rat) (ohe : List String) (fs : Bool)
    (dcont dcat : List String) :
    preprocess ext ds ("unsupervised") none none inm ("label_encoding") thr
      false none false nathr false ohe fs dcont dcat =
      .ok (pp_cleansed ext ds ("unsupervised") none inm ("label_encoding") thr
        ohe dcont dcat false false nathr) := rfl

/-- The merged dataset of the label-encoding path, unfolded. -/
lemma pp_cleansed_label_snd (ext : Collab) (ds : DF) (lt : String)
    (tv : Option String) (inm : String) (thr : Rat)
    (ohe dcont dcat : List String) (ddt dnd : Bool) (nathr : Rat) :
    (pp_cleansed ext ds lt tv inm ("label_encoding") thr ohe dcont dcat ddt dnd
        nathr).2 =
      (get_label_encoded_df (impute_nulls (dfSelect (pp_stage1 ext ds ddt dnd nathr)
          (pp_split ext (pp_stage1 ext ds ddt dnd nathr) lt tv thr dcont dcat).1)
          ("central_tendency")) thr).2 ++
        impute_nulls (dfSelect (pp_stage1 ext ds ddt dnd nathr)
          (pp_split ext (pp_stage1 ext ds ddt dnd nathr) lt tv thr dcont dcat).2)
          inm := rfl

/-- Every column of the merged label-encoded dataset carries one of the two
roles assigned by classification. -/
lemma mem_dfNames_cleansed_label (ext : Collab) (ds : DF) (lt : String)
    (tv : Option String) (inm : String) (thr : Rat)
    (ohe dcont dcat : List String) (ddt dnd : Bool) (nathr : Rat) (c : String)
    (h : c ∈ dfNames (pp_cleansed ext ds lt tv inm ("label_encoding") thr ohe
      dcont dcat ddt dnd nathr).2) :
    c ∈ (pp_split ext (pp_stage1 ext ds ddt dnd nathr) lt tv thr dcont dcat).1 ∨
    c ∈ (pp_split ext (pp_stage1 ext ds ddt dnd nathr) lt tv thr dcont dcat).2 := by
  rw [pp_cleansed_label_snd, dfNames_append, dfNames_gle, dfNames_impute,
    dfNames_impute, List.mem_append] at h
  exact h.imp mem_dfNames_select mem_dfNames_select

/-- C5 (amended): `master_correlation` performs no input validation.  On a
dataset with a single column it returns the trivial diagonal matrix
instead of raising `InvalidInputError`, for every collaborator behaviour
and threshold. -/
theorem claim_C5 (ext : Collab) (stats : Stats) (nm : String) (c : Col)
    (thr : Rat) (dcont dcat : List String) :
    master_correlation ext stats [(nm, c)] thr dcont dcat =
      .ok ⟨mc_index ext [(nm, c)] thr, mc_diag (mc_index ext [(nm, c)] thr)⟩ := by
  have hlen : (mc_index ext [(nm, c)] thr).length ≤ 1 :=
    le_trans (mc_index_length ext [(nm, c)] thr) (by simp)
  unfold master_correlation
  rw [combinations2_nil_of_short hlen]
  rfl

/-- Counterexample to C5 as stated: on a concrete one-column dataset the
standalone correlation computation returns a matrix (rather than failing
with InvalidInputError). -/
theorem claim_C5_counterexample :
    master_correlation extId statsK [(("a"), [some 0, some 1])] (3 / 10) [] [] =
      .ok ⟨[("a")], [((("a"), ("a")), 1)]⟩ := by
  decide

/-- C7: a column marked neither categorical nor numeric by the classifier
(and not pinned by an override list) is silently excluded: it is absent
from the correlation matrix index of `master_correlation` (which still
returns a matrix), and absent from the dataset produced by the
unsupervised label-encoding path of `preprocess`. -/
theorem claim_C7 (ext : Collab) (stats : Stats) (ds : DF) (thr : Rat)
    (dcont dcat : List String) (inm : String) (nathr : Rat) (ohe : List String)
    (fs : Bool) (c : String)
    (hchk : ∀ p, p ∈ ds → p.1 = c →
      ext.check_categorical_col p.2 thr = false ∧
      ext.check_numeric_col p.2 = false)
    (hdcont : ¬ c ∈ dcont) (hdcat : ¬ c ∈ dcat) :
    (exOk (master_correlation ext stats ds thr dcont dcat) = true ∧
      (∀ cdf, master_correlation ext stats ds thr dcont dcat = .ok cdf →
        ¬ c ∈ cdf.index)) ∧
    (∀ lbls fin,
      preprocess ext ds ("unsupervised") none none inm ("label_encoding") thr
        false none false nathr false ohe fs dcont dcat = .ok (lbls, fin) →
      ¬ c ∈ dfNames fin) := by
  obtain ⟨cdf0, hok0, hidx0⟩ := master_correlation_ok ext stats ds thr dcont dcat
  refine ⟨⟨by rw [hok0]; rfl, ?_⟩, ?_⟩
  · intro cdf hok
    rw [hok0] at hok
    have hh := Except.ok.inj hok
    rw [← hh, hidx0]
    exact not_mem_mc_index ext ds thr c hchk
  · intro lbls fin hok
    rw [preprocess_unsup_label] at hok
    have hh := Except.ok.inj hok
    have hfin : fin = (pp_cleansed ext ds ("unsupervised") none inm
        ("label_encoding") thr ohe dcont dcat false false nathr).2 :=
      (congrArg Prod.snd hh).symm
    rw [hfin]
    intro hc
    have hds1 : ∀ p, p ∈ pp_stage1 ext ds false false nathr → p ∈ ds :=
      fun p hp => mem_drop_single hp
    rcases mem_dfNames_cleansed_label ext ds ("unsupervised") none inm thr ohe
      dcont dcat false false nathr c hc with h2 | h2
    · rw [pp_split, mem_split_cols_cat] at h2
      rcases h2 with ⟨p, hp, hpc, _, hcat, _⟩ | h2
      · rw [(hchk p (hds1 p hp) hpc).1] at hcat
        exact Bool.false_ne_true hcat
      · exact hdcat h2
    · rw [pp_split, mem_split_cols_cont] at h2
      rcases h2 with ⟨p, hp, hpc, _, _, hnum, _⟩ | h2
      · rw [(hchk p (hds1 p hp) hpc).2] at hnum
        exact Bool.false_ne_true hnum
      · exact hdcont h2

/-- Collaborator for the C7 witness: a column is categorical or numeric
exactly when it has more than one entry. -/
def extP : Collab :=
  ⟨id, fun df _ => df, fun c _ => decide (1 < c.length),
   fun c => decide (1 < c.length), fun df _ _ => df, fun df _ _ => df,
   fun _ _ _ => ([], [])⟩

/-- Witness for C7 at a concrete dataset with an unclassifiable column. -/
theorem claim_C7_witness :
    (∀ p, p ∈ ([(("u"), [none]), (("a"), [some 1, some 2])] : DF) → p.1 = ("u") →
      extP.check_categorical_col p.2 (3 / 10) = false ∧
      extP.check_numeric_col p.2 = false) ∧
    ((exOk (master_correlation extP statsK [(("u"), [none]), (("a"), [some 1, some 2])]
        (3 / 10) [] []) = true ∧
      (∀ cdf, master_correlation extP statsK [(("u"), [none]), (("a"), [some 1, some 2])]
          (3 / 10) [] [] = .ok cdf → ¬ ("u") ∈ cdf.index)) ∧
    (∀ lbls fin,
      preprocess extP [(("u"), [none]), (("a"), [some 1, some 2])] ("unsupervised")
        none none ("central_tendency") ("label_encoding") (3 / 10) false none
        false (7 / 10) false [] true [] [] = .ok (lbls, fin) →
      ¬ ("u") ∈ dfNames fin)) :=
  ⟨by decide,
   claim_C7 extP statsK [(("u"), [none]), (("a"), [some 1, some 2])] (3 / 10) [] []
     ("central_tendency") (7 / 10) [] true ("u") (by decide) (by decide) (by decide)⟩

/-- Reading a cell after one write. -/
lemma getCell_setCell (m : CellList) (a b i j : String) (v : Rat) :
    getCell (setCell m a b v) i j =
      if a = i ∧ b = j then some v else getCell m i j := rfl

/-- Reading any cell of the diagonal-initialisation fold. -/
lemma getCell_diag_fold (a b : String) :
    ∀ (L : List String) (m : CellList),
      getCell (L.foldl (fun m c => setCell m c c 1) m) a b =
        if a = b ∧ a ∈ L then some 1 else getCell m a b := by
  intro L
  induction L with
  | nil => intro m; simp
  | cons x xs ih =>
    intro m
    rw [List.foldl_cons, ih, getCell_setCell]
    by_cases hab : a = b
    · subst hab
      by_cases hx : x = a
      · subst hx
        simp [List.mem_cons]
      · have hx2 : ¬ a = x := fun h => hx h.symm
        simp [List.mem_cons, hx, hx2]
    · have h2 : ¬ (x = a ∧ x = b) := fun hc => hab (hc.1.symm.trans hc.2)
      simp [hab, h2]

/-- Reading any cell of the initial diagonal matrix. -/
lemma getCell_mc_diag (L : List String) (a b : String) :
    getCell (mc_diag L) a b = if a = b ∧ a ∈ L then some 1 else none := by
  rw [mc_diag, getCell_diag_fold]
  rfl

/-- A double symmetric write preserves symmetry of the cell store. -/
lemma getCell_setCell2_sym (m : CellList) (i j a b : String) (v : Rat)
    (hsym : getCell m a b = getCell m b a) :
    getCell (setCell (setCell m i j v) j i v) a b =
      getCell (setCell (setCell m i j v) j i v) b a := by
  rw [getCell_setCell, getCell_setCell, getCell_setCell, getCell_setCell]
  split_ifs <;> first | rfl | exact hsym | tauto

/-- A double write on an off-diagonal pair preserves every diagonal
cell. -/
lemma getCell_setCell2_diag (m : CellList) (i j x : String) (v : Rat)
    (hne : i ≠ j) :
    getCell (setCell (setCell m i j v) j i v) x x = getCell m x x := by
  rw [getCell_setCell, getCell_setCell]
  split_ifs with h1 h2
  · exact absurd (h1.2.trans h1.1.symm) hne
  · exact absurd (h2.1.trans h2.2.symm) hne
  · rfl

/-- Combinations of a duplicate-free list pair distinct columns. -/
lemma combinations2_ne {l : List String} (hnd : l.Nodup) :
    ∀ {p : String × String}, p ∈ combinations2 l → p.1 ≠ p.2 := by
  induction l with
  | nil => intro p hp; simp [combinations2] at hp
  | cons x xs ih =>
    intro p hp
    rw [List.nodup_cons] at hnd
    simp only [combinations2, List.mem_append, List.mem_map] at hp
    rcases hp with ⟨y, hy, rfl⟩ | hp
    · intro h
      have h2 : x = y := h
      exact hnd.1 (h2.symm ▸ hy)
    · exact ih hnd.2 hp

/-- The successful pair step always writes both orientations of its
combination with one value. -/
lemma mc_pair_step_cells {stats : Stats} {cat cont : List String} {data : DF}
    {st st2 : Option Rat × CellList} {p : String × String}
    (hstep : mc_pair_step stats cat cont data st p = .ok st2) :
    ∃ v, st2.2 = setCell (setCell st.2 p.1 p.2 v) p.2 p.1 v := by
  unfold mc_pair_step at hstep
  cases hdisp : mc_dispatch stats cat cont data p.1 p.2 with
  | some v =>
    rw [hdisp] at hstep
    exact ⟨v, by cases hstep; rfl⟩
  | none =>
    rw [hdisp] at hstep
    cases hst1 : st.1 with
    | some v =>
      rw [hst1] at hstep
      exact ⟨v, by cases hstep; rfl⟩
    | none =>
      rw [hst1] at hstep
      cases hstep

/-- The pair loop preserves symmetry and the diagonal values of its cell
store, provided every combination pairs distinct columns. -/
lemma mc_loop_sym (stats : Stats) (cat cont : List String) (data : DF)
    (L : List String) :
    ∀ (combos : List (String × String)) (st stF : Option Rat × CellList),
      (∀ p, p ∈ combos → p.1 ≠ p.2) →
      (∀ a b, getCell st.2 a b = getCell st.2 b a) →
      (∀ x, x ∈ L → getCell st.2 x x = some 1) →
      mc_loop stats cat cont data combos st = .ok stF →
      ((∀ a b, getCell stF.2 a b = getCell stF.2 b a) ∧
       (∀ x, x ∈ L → getCell stF.2 x x = some 1)) := by
  intro combos
  induction combos with
  | nil =>
    intro st stF _ hsym hdiag hok
    cases hok
    exact ⟨hsym, hdiag⟩
  | cons p rest ih =>
    intro st stF hne hsym hdiag hok
    unfold mc_loop at hok
    cases hstep : mc_pair_step stats cat cont data st p with
    | error e =>
      rw [hstep] at hok
      cases hok
    | ok st2 =>
      rw [hstep] at hok
      obtain ⟨v, hv⟩ := mc_pair_step_cells hstep
      refine ih st2 stF (fun q hq => hne q (List.mem_cons_of_mem p hq)) ?_ ?_ hok
      · intro a b
        rw [hv]
        exact getCell_setCell2_sym st.2 p.1 p.2 a b v (hsym a b)
      · intro x hx
        rw [hv, getCell_setCell2_diag st.2 p.1 p.2 x v
          (hne p (List.mem_cons_self p rest))]
        exact hdiag x hx

/-- C2: the correlation matrix returned by `master_correlation` is
symmetric on its index, and every diagonal cell is exactly 1 (for any
dataset with unique column labels, any collaborators and any statistic
implementations). -/
theorem claim_C2 (ext : Collab) (stats : Stats) (ds : DF) (thr : Rat)
    (dcont dcat : List String) (cdf : CorrDF)
    (hnd : (dfNames ds).Nodup)
    (hok : master_correlation ext stats ds thr dcont dcat = .ok cdf) :
    (∀ i j, i ∈ cdf.index → j ∈ cdf.index →
      getCell cdf.cells i j = getCell cdf.cells j i) ∧
    (∀ i, i ∈ cdf.index → getCell cdf.cells i i = some 1) := by
  unfold master_correlation at hok
  cases hloop : mc_loop stats (mc_split ext ds thr).1 (mc_split ext ds thr).2
      (mc_data ext ds thr) (combinations2 (mc_index ext ds thr))
      (none, mc_diag (mc_index ext ds thr)) with
  | error e =>
    rw [hloop] at hok
    cases hok
  | ok st =>
    rw [hloop] at hok
    have hcdf := Except.ok.inj hok
    have hL := mc_index_nodup ext ds thr hnd
    have hres := mc_loop_sym stats (mc_split ext ds thr).1 (mc_split ext ds thr).2
      (mc_data ext ds thr) (mc_index ext ds thr)
      (combinations2 (mc_index ext ds thr))
      (none, mc_diag (mc_index ext ds thr)) st
      (fun p hp => combinations2_ne hL hp)
      (by
        intro a b
        rw [getCell_mc_diag, getCell_mc_diag]
        by_cases hab : a = b
        · subst hab; rfl
        · rw [if_neg (fun hc => hab hc.1), if_neg (fun hc => hab hc.1.symm)])
      (by
        intro x hx
        rw [getCell_mc_diag, if_pos ⟨rfl, hx⟩])
      hloop
    rw [← hcdf]
    exact ⟨fun i j _ _ => hres.1 i j, fun i hi => hres.2 i hi⟩

/-- Witness for C2 at a concrete two-column dataset. -/
theorem claim_C2_witness :
    (dfNames [(("k"), [some 1, some 1, some 2]),
      (("n"), [some 3, some 7, some 9])]).Nodup ∧
    master_correlation extM statsK [(("k"), [some 1, some 1, some 2]),
      (("n"), [some 3, some 7, some 9])] (3 / 10) [] [] =
      .ok ⟨[("k"), ("n")], [((("n"), ("k")), 30), ((("k"), ("n")), 30),
        ((("n"), ("n")), 1), ((("k"), ("k")), 1)]⟩ ∧
    ((∀ i j, i ∈ (⟨[("k"), ("n")], [((("n"), ("k")), 30), ((("k"), ("n")), 30),
        ((("n"), ("n")), 1), ((("k"), ("k")), 1)]⟩ : CorrDF).index →
      j ∈ (⟨[("k"), ("n")], [((("n"), ("k")), 30), ((("k"), ("n")), 30),
        ((("n"), ("n")), 1), ((("k"), ("k")), 1)]⟩ : CorrDF).index →
      getCell [((("n"), ("k")), 30), ((("k"), ("n")), 30), ((("n"), ("n")), 1),
        ((("k"), ("k")), 1)] i j =
      getCell [((("n"), ("k")), 30), ((("k"), ("n")), 30), ((("n"), ("n")), 1),
        ((("k"), ("k")), 1)] j i) ∧
    (∀ i, i ∈ (⟨[("k"), ("n")], [((("n"), ("k")), 30), ((("k"), ("n")), 30),
        ((("n"), ("n")), 1), ((("k"), ("k")), 1)]⟩ : CorrDF).index →
      getCell [((("n"), ("k")), 30), ((("k"), ("n")), 30), ((("n"), ("n")), 1),
        ((("k"), ("k")), 1)] i i = some 1)) :=
  ⟨by decide, by decide,
   claim_C2 extM statsK [(("k"), [some 1, some 1, some 2]),
     (("n"), [some 3, some 7, some 9])] (3 / 10) [] []
     ⟨[("k"), ("n")], [((("n"), ("k")), 30), ((("k"), ("n")), 30),
       ((("n"), ("n")), 1), ((("k"), ("k")), 1)]⟩ (by decide) (by decide)⟩

/-- A loop over combinations that never touch the cells of an ordered pair
leaves those two cells unchanged. -/
lemma mc_loop_preserve (stats : Stats) (cat cont : List String) (data : DF)
    (i j : String) :
    ∀ (combos : List (String × String)) (st stF : Option Rat × CellList),
      (∀ p, p ∈ combos → ¬ (p.1 = i ∧ p.2 = j) ∧ ¬ (p.1 = j ∧ p.2 = i)) →
      mc_loop stats cat cont data combos st = .ok stF →
      getCell stF.2 i j = getCell st.2 i j ∧
      getCell stF.2 j i = getCell st.2 j i := by
  intro combos
  induction combos with
  | nil =>
    intro st stF _ hok
    cases hok
    exact ⟨rfl, rfl⟩
  | cons p rest ih =>
    intro st stF hsep hok
    unfold mc_loop at hok
    cases hstep : mc_pair_step stats cat cont data st p with
    | error e =>
      rw [hstep] at hok
      cases hok
    | ok st2 =>
      rw [hstep] at hok
      obtain ⟨v, hv⟩ := mc_pair_step_cells hstep
      have hp := hsep p (List.mem_cons_self p rest)
      have h2 := ih st2 stF (fun q hq => hsep q (List.mem_cons_of_mem p hq)) hok
      constructor
      · rw [h2.1, hv, getCell_setCell, getCell_setCell,
          if_neg (fun hc => hp.2 ⟨hc.2, hc.1⟩), if_neg (fun hc => hp.1 hc)]
      · rw [h2.2, hv, getCell_setCell, getCell_setCell,
          if_neg (fun hc => hp.1 ⟨hc.2, hc.1⟩), if_neg (fun hc => hp.2 hc)]

/-- The value of the two cells of a combination that occurs in the loop:
the dispatched statistic, written symmetrically. -/
lemma mc_loop_cell (stats : Stats) (cat cont : List String) (data : DF)
    (i j : String) (v : Rat) (hij : i ≠ j)
    (hdisp : mc_dispatch stats cat cont data i j = some v) :
    ∀ (combos : List (String × String)) (st stF : Option Rat × CellList),
      combos.Nodup →
      (i, j) ∈ combos →
      (∀ p, p ∈ combos → p ≠ (i, j) →
        ¬ (p.1 = i ∧ p.2 = j) ∧ ¬ (p.1 = j ∧ p.2 = i)) →
      mc_loop stats cat cont data combos st = .ok stF →
      getCell stF.2 i j = some v ∧ getCell stF.2 j i = some v := by
  intro combos
  induction combos with
  | nil =>
    intro st stF _ hmem
    simp at hmem
  | cons p rest ih =>
    intro st stF hnd hmem hsep hok
    unfold mc_loop at hok
    cases hstep : mc_pair_step stats cat cont data st p with
    | error e =>
      rw [hstep] at hok
      cases hok
    | ok st2 =>
      rw [hstep] at hok
      rcases List.mem_cons.mp hmem with heq | hmem2
      · have hpij : p = (i, j) := heq.symm
        subst hpij
        have hv2 : st2.2 = setCell (setCell st.2 i j v) j i v := by
          unfold mc_pair_step at hstep
          rw [hdisp] at hstep
          cases hstep
          rfl
        have hnotin : ¬ (i, j) ∈ rest := (List.nodup_cons.mp hnd).1
        have hrest := mc_loop_preserve stats cat cont data i j rest st2 stF
          (fun q hq =>
            hsep q (List.mem_cons_of_mem _ hq)
              (fun he => hnotin (he ▸ hq)))
          hok
        constructor
        · rw [hrest.1, hv2, getCell_setCell, getCell_setCell,
            if_neg (fun hc => hij hc.2),
            if_pos ⟨rfl, rfl⟩]
        · rw [hrest.2, hv2, getCell_setCell, if_pos ⟨rfl, rfl⟩]
      · have hpne : p ≠ (i, j) :=
          fun he => (List.nodup_cons.mp hnd).1 (he ▸ hmem2)
        exact ih st2 stF (List.nodup_cons.mp hnd).2 hmem2
          (fun q hq hqne => hsep q (List.mem_cons_of_mem p hq) hqne) hok

/-- A list without duplicates yields each unordered combination in only one
orientation. -/
lemma combinations2_asymm {l : List String} (hnd : l.Nodup) :
    ∀ {a b : String}, (a, b) ∈ combinations2 l → ¬ (b, a) ∈ combinations2 l := by
  induction l with
  | nil =>
    intro a b h
    simp [combinations2] at h
  | cons x xs ih =>
    intro a b hab hba
    rw [List.nodup_cons] at hnd
    simp only [combinations2, List.mem_append, List.mem_map] at hab hba
    rcases hab with ⟨y, hy, he⟩ | hab
    · have hxa : x = a := congrArg Prod.fst he
      have hyb : y = b := congrArg Prod.snd he
      rcases hba with ⟨z, hz, he2⟩ | hba
      · have hxb : x = b := congrArg Prod.fst he2
        exact hnd.1 ((hxb.trans hyb.symm) ▸ hy)
      · exact hnd.1 (hxa ▸ (combinations2_mem hba).2)
    · rcases hba with ⟨z, hz, he2⟩ | hba
      · have hxb : x = b := congrArg Prod.fst he2
        exact hnd.1 (hxb ▸ (combinations2_mem hab).2)
      · exact ih hnd.2 hab hba

/-- Combinations of a duplicate-free list are duplicate-free. -/
lemma combinations2_nodup {l : List String} (hnd : l.Nodup) :
    (combinations2 l).Nodup := by
  induction l with
  | nil => exact List.nodup_nil
  | cons x xs ih =>
    rw [List.nodup_cons] at hnd
    show (xs.map (fun y => (x, y)) ++ combinations2 xs).Nodup
    refine List.Nodup.append
      (List.Nodup.map (fun a b h => congrArg Prod.snd h) hnd.2) (ih hnd.2) ?_
    intro p hp hp2
    obtain ⟨y, hy, he⟩ := List.mem_map.mp hp
    have hpx : x = p.1 := congrArg Prod.fst he
    exact hnd.1 (hpx ▸ (combinations2_mem hp2).1)

/-- Dispatch for two continuous columns is Pearson. -/
lemma mc_dispatch_cont_cont (stats : Stats) (cat cont : List String) (data : DF)
    (i j : String) (h1 : i ∈ cont) (h2 : j ∈ cont) :
    mc_dispatch stats cat cont data i j =
      some (stats.pearson (dfCol data i) (dfCol data j)) := by
  unfold mc_dispatch
  rw [if_pos ⟨h1, h2⟩]

/-- Dispatch for two categorical columns is Cramers V. -/
lemma mc_dispatch_cat_cat (stats : Stats) (cat cont : List String) (data : DF)
    (i j : String) (h1 : i ∈ cat) (h2 : j ∈ cat) (hn1 : ¬ i ∈ cont) :
    mc_dispatch stats cat cont data i j =
      some (stats.cramersv (dfCol data i) (dfCol data j)) := by
  unfold mc_dispatch
  rw [if_neg (fun hc => hn1 hc.1), if_pos ⟨h1, h2⟩]

/-- Dispatch for a continuous-categorical pair is Kendalls Tau. -/
lemma mc_dispatch_cont_cat (stats : Stats) (cat cont : List String) (data : DF)
    (i j : String) (h1 : i ∈ cont) (h2 : j ∈ cat)
    (hn1 : ¬ i ∈ cat) (hn2 : ¬ j ∈ cont) :
    mc_dispatch stats cat cont data i j =
      some (stats.kendalltau (dfCol data i) (dfCol data j)) := by
  unfold mc_dispatch
  rw [if_neg (fun hc => hn2 hc.2), if_neg (fun hc => hn1 hc.1), if_pos ⟨h1, h2⟩]

/-- Dispatch for a categorical-continuous pair is Kendalls Tau. -/
lemma mc_dispatch_cat_cont (stats : Stats) (cat cont : List String) (data : DF)
    (i j : String) (h1 : i ∈ cat) (h2 : j ∈ cont)
    (hn1 : ¬ i ∈ cont) (hn2 : ¬ j ∈ cat) :
    mc_dispatch stats cat cont data i j =
      some (stats.kendalltau (dfCol data i) (dfCol data j)) := by
  unfold mc_dispatch
  rw [if_neg (fun hc => hn1 hc.1), if_neg (fun hc => hn2 hc.2),
    if_neg (fun hc => hn1 hc.1), if_pos ⟨h1, h2⟩]

/-- C1: for every pair of distinct classified columns of the correlation
matrix (taken in index order), the cell value is the statistic selected by
the pair's roles: Pearson for continuous-continuous, Cramers V for
categorical-categorical, Kendalls Tau for a mixed pair in either role
order, with the same Kendalls Tau value stored in both orientations of
the pair. -/
theorem claim_C1 (ext : Collab) (stats : Stats) (ds : DF) (thr : Rat)
    (dcont dcat : List String) (i j : String) (cdf : CorrDF)
    (hnd : (dfNames ds).Nodup)
    (hmem : (i, j) ∈ combinations2 (mc_index ext ds thr))
    (hok : master_correlation ext stats ds thr dcont dcat = .ok cdf) :
    ((i ∈ (mc_split ext ds thr).2 ∧ j ∈ (mc_split ext ds thr).2) →
      getCell cdf.cells i j = some (stats.pearson (dfCol (mc_data ext ds thr) i)
        (dfCol (mc_data ext ds thr) j)) ∧
      getCell cdf.cells j i = some (stats.pearson (dfCol (mc_data ext ds thr) i)
        (dfCol (mc_data ext ds thr) j))) ∧
    ((i ∈ (mc_split ext ds thr).1 ∧ j ∈ (mc_split ext ds thr).1) →
      getCell cdf.cells i j = some (stats.cramersv (dfCol (mc_data ext ds thr) i)
        (dfCol (mc_data ext ds thr) j)) ∧
      getCell cdf.cells j i = some (stats.cramersv (dfCol (mc_data ext ds thr) i)
        (dfCol (mc_data ext ds thr) j))) ∧
    (((i ∈ (mc_split ext ds thr).1 ∧ j ∈ (mc_split ext ds thr).2) ∨
      (i ∈ (mc_split ext ds thr).2 ∧ j ∈ (mc_split ext ds thr).1)) →
      getCell cdf.cells i j = some (stats.kendalltau (dfCol (mc_data ext ds thr) i)
        (dfCol (mc_data ext ds thr) j)) ∧
      getCell cdf.cells j i = some (stats.kendalltau (dfCol (mc_data ext ds thr) i)
        (dfCol (mc_data ext ds thr) j))) := by
  have hLnd := mc_index_nodup ext ds thr hnd
  have hij : i ≠ j := combinations2_ne hLnd hmem
  have hcnd := combinations2_nodup hLnd
  have hsep : ∀ p, p ∈ combinations2 (mc_index ext ds thr) → p ≠ (i, j) →
      ¬ (p.1 = i ∧ p.2 = j) ∧ ¬ (p.1 = j ∧ p.2 = i) := by
    intro p hp hpne
    constructor
    · intro hc
      exact hpne (Prod.ext_iff.mpr ⟨hc.1, hc.2⟩)
    · intro hc
      have hpji : p = (j, i) := Prod.ext_iff.mpr ⟨hc.1, hc.2⟩
      exact combinations2_asymm hLnd hmem (hpji ▸ hp)
  unfold master_correlation at hok
  cases hloop : mc_loop stats (mc_split ext ds thr).1 (mc_split ext ds thr).2
      (mc_data ext ds thr) (combinations2 (mc_index ext ds thr))
      (none, mc_diag (mc_index ext ds thr)) with
  | error e =>
    rw [hloop] at hok
    cases hok
  | ok st =>
    rw [hloop] at hok
    have hcdf := Except.ok.inj hok
    have hcells : cdf.cells = st.2 := by rw [← hcdf]
    rw [hcells]
    refine ⟨?_, ?_, ?_⟩
    · rintro ⟨h1, h2⟩
      exact mc_loop_cell stats (mc_split ext ds thr).1 (mc_split ext ds thr).2
        (mc_data ext ds thr) i j _ hij
        (mc_dispatch_cont_cont stats (mc_split ext ds thr).1
          (mc_split ext ds thr).2 (mc_data ext ds thr) i j h1 h2)
        (combinations2 (mc_index ext ds thr)) _ st hcnd hmem hsep hloop
    · rintro ⟨h1, h2⟩
      have hni : ¬ i ∈ (mc_split ext ds thr).2 :=
        fun hc => mc_split_not_both ext ds thr hnd i ⟨h1, hc⟩
      exact mc_loop_cell stats (mc_split ext ds thr).1 (mc_split ext ds thr).2
        (mc_data ext ds thr) i j _ hij
        (mc_dispatch_cat_cat stats (mc_split ext ds thr).1
          (mc_split ext ds thr).2 (mc_data ext ds thr) i j h1 h2 hni)
        (combinations2 (mc_index ext ds thr)) _ st hcnd hmem hsep hloop
    · rintro (⟨h1, h2⟩ | ⟨h1, h2⟩)
      · have hni : ¬ i ∈ (mc_split ext ds thr).2 :=
          fun hc => mc_split_not_both ext ds thr hnd i ⟨h1, hc⟩
        have hnj : ¬ j ∈ (mc_split ext ds thr).1 :=
          fun hc => mc_split_not_both ext ds thr hnd j ⟨hc, h2⟩
        exact mc_loop_cell stats (mc_split ext ds thr).1 (mc_split ext ds thr).2
          (mc_data ext ds thr) i j _ hij
          (mc_dispatch_cat_cont stats (mc_split ext ds thr).1
            (mc_split ext ds thr).2 (mc_data ext ds thr) i j h1 h2 hni hnj)
          (combinations2 (mc_index ext ds thr)) _ st hcnd hmem hsep hloop
      · have hni : ¬ i ∈ (mc_split ext ds thr).1 :=
          fun hc => mc_split_not_both ext ds thr hnd i ⟨hc, h1⟩
        have hnj : ¬ j ∈ (mc_split ext ds thr).2 :=
          fun hc => mc_split_not_both ext ds thr hnd j ⟨h2, hc⟩
        exact mc_loop_cell stats (mc_split ext ds thr).1 (mc_split ext ds thr).2
          (mc_data ext ds thr) i j _ hij
          (mc_dispatch_cont_cat stats (mc_split ext ds thr).1
            (mc_split ext ds thr).2 (mc_data ext ds thr) i j h1 h2 hni hnj)
          (combinations2 (mc_index ext ds thr)) _ st hcnd hmem hsep hloop

/-- Concrete dataset for the C1 witness: one categorical column and one
continuous column under `extM`. -/
def dsKN : DF :=
  [(("k"), [some 1, some 1, some 2]), (("n"), [some 3, some 7, some 9])]

/-- The correlation dataframe `master_correlation` returns on `dsKN`. -/
def cdfKN : CorrDF :=
  ⟨[("k"), ("n")],
   [((("n"), ("k")), 30), ((("k"), ("n")), 30), ((("n"), ("n")), 1),
    ((("k"), ("k")), 1)]⟩

/-- Witness for C1 at a concrete dataset with one categorical and one
continuous column: both orientations of the mixed pair hold the same
Kendalls Tau value. -/
theorem claim_C1_witness :
    ((("k"), ("n")) ∈ combinations2 (mc_index extM dsKN (3 / 10))) ∧
    getCell cdfKN.cells ("k") ("n") =
      some (statsK.kendalltau (dfCol (mc_data extM dsKN (3 / 10)) ("k"))
        (dfCol (mc_data extM dsKN (3 / 10)) ("n"))) ∧
    getCell cdfKN.cells ("n") ("k") =
      some (statsK.kendalltau (dfCol (mc_data extM dsKN (3 / 10)) ("k"))
        (dfCol (mc_data extM dsKN (3 / 10)) ("n"))) :=
  ⟨by decide,
   ((claim_C1 extM statsK dsKN (3 / 10) [] [] ("k") ("n") cdfKN
      (by decide) (by decide) (by decide)).2.2
     (Or.inl ⟨by decide, by decide⟩)).1,
   ((claim_C1 extM statsK dsKN (3 / 10) [] [] ("k") ("n") cdfKN
      (by decide) (by decide) (by decide)).2.2
     (Or.inl ⟨by decide, by decide⟩)).2⟩

/-- C6: for every valid supervised run with feature selection enabled (and
no log transform, which would fail earlier), `preprocess` returns exactly
the projection of the merged dataset onto the correlated features plus the
target column; every column name of the result is a correlated feature or
the target. -/
theorem claim_C6 (ext : Collab) (dataset : DF) (tv tt inm tc : String)
    (thr : Rat) (ro : Bool) (ohe dcont dcat : List String) (ddt dnd : Bool)
    (nathr : Rat) (m : List (String × List Val) × DF) (cf : List String)
    (htc : pyLower tc ∈ (["label_encoding", "one_hot_encoding"] : List String))
    (hm : m = pp_mapped ext dataset ("supervised") (some tv) (some tt) inm tc
      thr ro ohe dcont dcat ddt dnd nathr)
    (hcf : cf = (ext.get_correlated_features m.2 tv tt).2) :
    preprocess ext dataset ("supervised") (some tv) (some tt) inm tc thr ro none
      dnd nathr ddt ohe true dcont dcat = .ok (m.1, dfSelect m.2 (cf ++ [tv])) ∧
    (∀ n, n ∈ dfNames (dfSelect m.2 (cf ++ [tv])) → n ∈ cf ∨ n = tv) := by
  constructor
  · subst hm
    subst hcf
    unfold preprocess
    rw [if_neg (not_not_intro (by decide)), if_neg (not_not_intro htc),
      if_neg (fun hc => Option.noConfusion hc.2),
      if_neg (fun hc => Option.noConfusion hc.2)]
    rfl
  · intro n hn
    have h2 := mem_dfNames_select hn
    rw [List.mem_append, List.mem_singleton] at h2
    exact h2

/-- Witness for C6 at a concrete supervised configuration. -/
theorem claim_C6_witness :
    pyLower ("label_encoding") ∈ (["label_encoding", "one_hot_encoding"] : List String) ∧
    (preprocess extId [(("a"), [some 1, some 2]), (("t"), [some 0, some 1])]
        ("supervised") (some ("t")) (some ("continuous")) ("central_tendency")
        ("label_encoding") (3 / 10) false none false (7 / 10) false [] true [] [] =
      .ok ((pp_mapped extId [(("a"), [some 1, some 2]), (("t"), [some 0, some 1])]
          ("supervised") (some ("t")) (some ("continuous")) ("central_tendency")
          ("label_encoding") (3 / 10) false [] [] [] false false (7 / 10)).1,
        dfSelect (pp_mapped extId [(("a"), [some 1, some 2]), (("t"), [some 0, some 1])]
          ("supervised") (some ("t")) (some ("continuous")) ("central_tendency")
          ("label_encoding") (3 / 10) false [] [] [] false false (7 / 10)).2
          ((extId.get_correlated_features (pp_mapped extId
            [(("a"), [some 1, some 2]), (("t"), [some 0, some 1])]
            ("supervised") (some ("t")) (some ("continuous")) ("central_tendency")
            ("label_encoding") (3 / 10) false [] [] [] false false (7 / 10)).2
            ("t") ("continuous")).2 ++ [("t")])) ∧
    (∀ n, n ∈ dfNames (dfSelect (pp_mapped extId
        [(("a"), [some 1, some 2]), (("t"), [some 0, some 1])]
        ("supervised") (some ("t")) (some ("continuous")) ("central_tendency")
        ("label_encoding") (3 / 10) false [] [] [] false false (7 / 10)).2
        ((extId.get_correlated_features (pp_mapped extId
          [(("a"), [some 1, some 2]), (("t"), [some 0, some 1])]
          ("supervised") (some ("t")) (some ("continuous")) ("central_tendency")
          ("label_encoding") (3 / 10) false [] [] [] false false (7 / 10)).2
          ("t") ("continuous")).2 ++ [("t")])) →
      n ∈ (extId.get_correlated_features (pp_mapped extId
        [(("a"), [some 1, some 2]), (("t"), [some 0, some 1])]
        ("supervised") (some ("t")) (some ("continuous")) ("central_tendency")
        ("label_encoding") (3 / 10) false [] [] [] false false (7 / 10)).2
        ("t") ("continuous")).2 ∨ n = ("t"))) :=
  ⟨by decide,
   claim_C6 extId [(("a"), [some 1, some 2]), (("t"), [some 0, some 1])]
     ("t") ("continuous") ("central_tendency") ("label_encoding") (3 / 10) false
     [] [] [] false false (7 / 10) _ _ (by decide) rfl rfl⟩
